import Mathlib

/-!
Verification of the CAD quoting engine (src/main.py, class CADQuotingEngine).

Shallow embedding conventions:
* Python floats are modelled as exact rationals (ℚ); the claims are about the
  algorithmic structure of the pricing pipeline, not IEEE rounding.
* The mesh (an external trimesh object in the source) is modelled as the record
  of the geometric quantities the engine reads from it: bounding-box extents,
  volume, surface area, convex-hull volume, face count and edge count.
* Python `int(x)` (truncation toward zero) is modelled by `pyInt`.
* The only fallible step, `calculate_costs`, returns `Except String QuoteResult`.
* Names follow the source where Lean allows.  Source names ending in `_ratio`
  are rendered with the suffix `_frac` (`sa_vol_frac` for `sa_volume_ratio`,
  `cavity_frac` for `cavity_ratio`, `edge_face_frac` for `edge_face_ratio`,
  `wasteOf` for `waste_ratio`).
-/

/-- The geometric quantities the engine reads from a loaded mesh
(`mesh.bounds`-derived extents, `mesh.volume`, `mesh.area`,
`mesh.convex_hull.volume`, `len(mesh.faces)`, `len(mesh.edges)`). -/
structure MeshGeometry where
  length : ℚ
  width : ℚ
  height : ℚ
  volume : ℚ
  surface_area : ℚ
  convex_hull_volume : ℚ
  face_count : ℕ
  edge_count : ℕ
  deriving DecidableEq

/-- Python's `int()` applied to a float: truncation toward zero. -/
def pyInt (x : ℚ) : ℤ := if 0 ≤ x then ⌊x⌋ else -⌊-x⌋

/- ---------------- engine constants (CADQuotingEngine.__init__) ---------------- -/

def aluminum_density : ℚ := 2.7
def aluminum_price_per_kg : ℚ := 5.0
def coarse_cost_per_mm3 : ℚ := 0.00011
def medium_cost_per_mm3 : ℚ := 0.00039
def fine_cost_per_mm3 : ℚ := 0.00175
def min_price_per_part : ℚ := 200
def base_setup_time : ℚ := 0.4

/- ---------------- detect_features ---------------- -/

/-- Embeds `sa_volume_ratio` of the source: `surface_area / volume if volume > 0 else 0`,
with `volume = abs(mesh.volume)`. -/
def sa_vol_frac (m : MeshGeometry) : ℚ :=
  if 0 < |m.volume| then m.surface_area / |m.volume| else 0

def holes_of (m : MeshGeometry) : ℤ :=
  if 0.15 < sa_vol_frac m then max 1 (min 5 (pyInt (sa_vol_frac m * 5))) else 0

/-- Embeds `cavity_ratio = 1 - (volume / abs(convex_hull.volume))`. -/
def cavity_frac (m : MeshGeometry) : ℚ :=
  1 - |m.volume| / |m.convex_hull_volume|

def cavities_of (m : MeshGeometry) : ℤ :=
  if 0.2 < cavity_frac m then max 1 (min 3 (pyInt (cavity_frac m * 3))) else 0

/-- Embeds `edge_face_ratio = len(mesh.edges)/len(mesh.faces) if len(mesh.faces) > 0 else 0`. -/
def edge_face_frac (m : MeshGeometry) : ℚ :=
  if 0 < m.face_count then (m.edge_count : ℚ) / (m.face_count : ℚ) else 0

def sharp_edges_of (m : MeshGeometry) : ℤ :=
  if 3.0 < edge_face_frac m then max 1 (min 4 (pyInt (edge_face_frac m * 1.5))) else 0

def pockets_of (m : MeshGeometry) : ℤ :=
  if 2000 < m.face_count then max 1 (min 8 (pyInt ((m.face_count : ℚ) / 1000)))
  else if 1000 < m.face_count then max 1 (min 4 (pyInt ((m.face_count : ℚ) / 800)))
  else 0

structure FeatureCounts where
  holes : ℤ
  cavities : ℤ
  sharp_edges : ℤ
  pockets : ℤ
  feature_score : ℚ
  deriving DecidableEq

/-- Embeds `CADQuotingEngine.detect_features`.  The source wraps the body in
`try/except`; with the mesh abstracted to `MeshGeometry` the only failing
operation is the division by `abs(convex_hull.volume)` in `cavity_ratio`
(a `ZeroDivisionError` when that volume is 0).  The `except` arm keeps the
entries already written into the dict — `holes` is assigned before the failing
line, `cavities`, `sharp_edges` and `pockets` after it — and sets
`feature_score = 0`. -/
def detect_features (m : MeshGeometry) : FeatureCounts :=
  if |m.convex_hull_volume| = 0 then
    { holes := holes_of m, cavities := 0, sharp_edges := 0, pockets := 0, feature_score := 0 }
  else
    { holes := holes_of m
      cavities := cavities_of m
      sharp_edges := sharp_edges_of m
      pockets := pockets_of m
      feature_score := (holes_of m : ℚ) * 0.8 + (cavities_of m : ℚ) * 0.6 +
        (sharp_edges_of m : ℚ) * 0.4 + (pockets_of m : ℚ) * 0.5 }

/- ---------------- complexity score and categories ---------------- -/

/-- Embeds `CADQuotingEngine.calculate_complexity_score`. -/
def calculate_complexity_score (m : MeshGeometry) : ℚ :=
  let features := detect_features m
  let sa_complexity := min (sa_vol_frac m * 0.15) 3.0
  let face_complexity := min (((m.face_count : ℚ) / 1000) * 2.0) 4.0
  let edge_complexity := min (((m.edge_count : ℚ) / 1000) * 2.0) 3.0
  let feature_complexity := min (features.feature_score * 0.3) 2.0
  min (sa_complexity + face_complexity + edge_complexity + feature_complexity) 8.0

/-- Embeds `CADQuotingEngine.get_complexity_category`. -/
def get_complexity_category (score : ℚ) : String :=
  if score < 4.0 then "low" else if score < 6.0 then "medium" else "high"

/-- Embeds `CADQuotingEngine.get_size_category` (keyed on the bounding-box `length`). -/
def get_size_category (length : ℚ) : String :=
  if length < 50 then "small" else if length < 200 then "medium" else "large"

/-- Embeds `self.complexity_calibration.get(category, 1.0)`. -/
def complexity_calibration (category : String) : ℚ :=
  if category = "low" then 0.85
  else if category = "medium" then 1.0
  else if category = "high" then 1.35
  else 1.0

/-- Embeds `self.size_calibration.get(category, 1.0)`. -/
def size_calibration (category : String) : ℚ :=
  if category = "small" then 1.15
  else if category = "medium" then 1.0
  else if category = "large" then 0.9
  else 1.0

/- ---------------- quantity multiplier ---------------- -/

/-- The `tiers` table of `get_quantity_multiplier`. -/
def qmTiers : List (ℤ × ℚ) :=
  [(1, 1.0), (2, 0.95), (3, 0.92), (4, 0.90), (5, 0.88), (10, 0.85),
   (15, 0.82), (20, 0.80), (25, 0.78), (50, 0.75), (100, 0.72)]

/-- The `for i in range(len(tiers) - 1)` loop of `get_quantity_multiplier`:
the first adjacent pair `(lower, upper)` with `lower ≤ q ≤ upper` is
interpolated; falling off the end of the loop yields `none`. -/
def interpLoop : List (ℤ × ℚ) → ℤ → Option ℚ
  | (l, lm) :: (u, um) :: rest, q =>
      if l ≤ q ∧ q ≤ u then some (lm + (um - lm) * (((q - l : ℤ) : ℚ) / ((u - l : ℤ) : ℚ)))
      else interpLoop ((u, um) :: rest) q
  | _, _ => none

/-- Embeds `CADQuotingEngine.get_quantity_multiplier`.  After the loop the source
reaches `return tiers[0][1]`, i.e. `1.0` — modelled with `getD 1.0`. -/
def get_quantity_multiplier (quantity : ℤ) : ℚ :=
  if quantity < 1 then 1.0
  else if 5000 ≤ quantity then 0.72
  else (interpLoop qmTiers quantity).getD 1.0

/- ---------------- stock selector (find_smallest_fitting_block) ---------------- -/

/-- A triple of part or block dimensions in millimetres. -/
abbrev Q3 := ℚ × ℚ × ℚ

/-- Embeds `self.block_sizes`: the 21-entry stock catalog. -/
def block_sizes : List Q3 :=
  [(25, 25, 25), (50, 50, 50), (75, 75, 75),
   (100, 100, 100), (125, 125, 125), (150, 125, 125), (150, 150, 150),
   (175, 150, 150), (200, 150, 150), (200, 200, 150), (200, 200, 200),
   (250, 200, 200), (250, 250, 200), (250, 250, 250), (300, 250, 250),
   (300, 300, 250), (300, 300, 300),
   (400, 300, 300), (400, 400, 300), (500, 400, 400), (600, 500, 500)]

def sort2 (a b : ℚ) : ℚ × ℚ := if a ≤ b then (a, b) else (b, a)

/-- Python's `sorted` on a 3-element list (ascending). -/
def sort3 (d : Q3) : Q3 :=
  let p1 := sort2 d.1 d.2.1
  let p2 := sort2 p1.2 d.2.2
  let p3 := sort2 p1.1 p2.1
  (p3.1, p3.2, p2.2)

/-- Embeds `all(d <= b for d, b in zip(sorted_dimensions, sorted_block))`. -/
def fitsIn (dims block : Q3) : Prop :=
  (sort3 dims).1 ≤ (sort3 block).1 ∧
  (sort3 dims).2.1 ≤ (sort3 block).2.1 ∧
  (sort3 dims).2.2 ≤ (sort3 block).2.2

instance (dims block : Q3) : Decidable (fitsIn dims block) := by
  unfold fitsIn; infer_instance

def blockVolume (b : Q3) : ℚ := b.1 * b.2.1 * b.2.2

def partVolume (d : Q3) : ℚ := d.1 * d.2.1 * d.2.2

/-- Embeds `waste_ratio = (block_volume - part_volume) / block_volume`. -/
def wasteOf (pv bv : ℚ) : ℚ := (bv - pv) / bv

/-- First collection pass of `find_smallest_fitting_block`: fitting blocks with
waste ratio at most 0.7, stored as `(block, waste_ratio, block_volume)`. -/
def pass1_blocks (dims : Q3) : List (Q3 × ℚ × ℚ) :=
  block_sizes.filterMap (fun block =>
    if fitsIn dims block then
      if wasteOf (partVolume dims) (blockVolume block) ≤ 0.7 then
        some (block, wasteOf (partVolume dims) (blockVolume block), blockVolume block)
      else none
    else none)

/-- Second collection pass (`if not fitting_blocks:`): every fitting block,
with the waste entry hard-coded to 0.8. -/
def pass2_blocks (dims : Q3) : List (Q3 × ℚ × ℚ) :=
  block_sizes.filterMap (fun block =>
    if fitsIn dims block then some (block, (0.8 : ℚ), blockVolume block) else none)

def fitting_blocks_of (dims : Q3) : List (Q3 × ℚ × ℚ) :=
  if (pass1_blocks dims).isEmpty then pass2_blocks dims else pass1_blocks dims

/-- Embeds `[b for b in fitting_blocks if 0.2 <= b[1] <= 0.6]`. -/
def optimal_blocks_of (dims : Q3) : List (Q3 × ℚ × ℚ) :=
  (fitting_blocks_of dims).filterMap (fun b =>
    if 0.2 ≤ b.2.1 ∧ b.2.1 ≤ 0.6 then some b else none)

/-- Strict lexicographic order on ℚ × ℚ — Python's tuple `<`. -/
def lexLt (p q : ℚ × ℚ) : Prop := p.1 < q.1 ∨ (p.1 = q.1 ∧ p.2 < q.2)

/-- Non-strict lexicographic order on ℚ × ℚ. -/
def lexLe (p q : ℚ × ℚ) : Prop := p.1 < q.1 ∨ (p.1 = q.1 ∧ p.2 ≤ q.2)

instance (p q : ℚ × ℚ) : Decidable (lexLt p q) := by unfold lexLt; infer_instance

instance (p q : ℚ × ℚ) : Decidable (lexLe p q) := by unfold lexLe; infer_instance

/-- Python's `min(l, key=key)` for a rational key: the first element with
minimal key (`none` on the empty list). -/
def minByKey {α : Type} (key : α → ℚ) : List α → Option α
  | [] => none
  | x :: xs => some (xs.foldl (fun best y => if key y < key best then y else best) x)

/-- Python's `min(l, key=key)` for a tuple-valued key (lexicographic). -/
def minByKey2 {α : Type} (key : α → ℚ × ℚ) : List α → Option α
  | [] => none
  | x :: xs => some (xs.foldl (fun best y => if lexLt (key y) (key best) then y else best) x)

/-- Embeds `CADQuotingEngine.find_smallest_fitting_block`. -/
def find_smallest_fitting_block (dims : Q3) : Option Q3 :=
  if (fitting_blocks_of dims).isEmpty then none
  else
    match minByKey2 (fun b => (|b.2.1 - 0.3|, b.2.2)) (optimal_blocks_of dims) with
    | some best => some best.1
    | none => (minByKey (fun b => b.2.2) (fitting_blocks_of dims)).map (fun b => b.1)

/- ---------------- volumes, labor, quote composition ---------------- -/

structure Volumes where
  part_volume : ℚ
  convex_hull_volume : ℚ
  shrink_wrap_volume : ℚ
  deriving DecidableEq

/-- Embeds `CADQuotingEngine.calculate_volumes`: absolute part and hull volumes, and
the shrink wrap proxy at 80% of the hull volume. -/
def calculate_volumes (m : MeshGeometry) : Volumes :=
  { part_volume := |m.volume|
    convex_hull_volume := |m.convex_hull_volume|
    shrink_wrap_volume := |m.convex_hull_volume| * 0.8 }

/-- The `complexity_factor` of `calculate_labor_costs`. -/
def complexity_factor_of (complexity_score : ℚ) : ℚ :=
  if complexity_score < 3 then 0.8 else if complexity_score < 7 then 1.0 else 1.4

structure LaborCosts where
  cad_cam_programming : ℚ
  machine_setup : ℚ
  tool_setup : ℚ
  quality_inspection : ℚ
  deburring_finishing : ℚ
  project_management : ℚ
  total_labor_cost : ℚ
  total_hours : ℚ
  deriving DecidableEq

/-- Embeds `CADQuotingEngine.calculate_labor_costs`. -/
def calculate_labor_costs (m : MeshGeometry) (complexity_score : ℚ) (quantity : ℤ) :
    LaborCosts :=
  let base_setup_hours := base_setup_time
  let complexity_factor := complexity_factor_of complexity_score
  let cad_cam_hours := base_setup_hours * 0.4 * complexity_factor
  let machine_setup_hours := base_setup_hours * 0.3 * complexity_factor
  let tool_setup_hours := base_setup_hours * 0.3 * complexity_factor
  let surface_area_m2 := m.surface_area / 1000000
  let qc_hours := max 0.1 (surface_area_m2 * 0.5) * complexity_factor
  let finishing_hours := max 0.1 (surface_area_m2 * 0.3) * complexity_factor
  let project_mgmt_hours := 0.2 + complexity_score / 20
  let cad_cost := cad_cam_hours * 110.0
  let machine_setup_cost := machine_setup_hours * 65.0
  let tool_setup_cost := tool_setup_hours * 55.0
  let qc_cost := qc_hours * 65.0
  let finishing_cost := finishing_hours * 45.0
  let project_mgmt_cost := project_mgmt_hours * 85.0
  let total_labor_cost :=
    if 1 < quantity then
      cad_cost + machine_setup_cost + tool_setup_cost + project_mgmt_cost +
        (qc_cost + finishing_cost) * (quantity : ℚ)
    else
      cad_cost + machine_setup_cost + tool_setup_cost + qc_cost + finishing_cost +
        project_mgmt_cost
  { cad_cam_programming := cad_cost
    machine_setup := machine_setup_cost
    tool_setup := tool_setup_cost
    quality_inspection := qc_cost
    deburring_finishing := finishing_cost
    project_management := project_mgmt_cost
    total_labor_cost := total_labor_cost
    total_hours := cad_cam_hours + machine_setup_hours + tool_setup_hours + qc_hours +
      finishing_hours + project_mgmt_hours }

/-- Embeds `self.expedited_options`: tier → (price multiplier, max days, description). -/
def expedited_options (tier : String) : Option (ℚ × ℤ × String) :=
  if tier = "5_days" then some (1.3, 5, "5 business days")
  else if tier = "4_days" then some (1.6, 4, "4 business days")
  else if tier = "3_days" then some (2.0, 3, "3 business days")
  else none

/-- The standard lead-time bucketing of `calculate_costs` (lines 548-556 of the
source; the volumetric lead-time computation preceding it is dead code — its
result is overwritten by this value). -/
def standardLeadTime (complexity_score : ℚ) : ℤ :=
  if complexity_score < 5 then 7 else if complexity_score < 8 then 10 else 11

structure Breakdown where
  coarse_milling_cost : ℚ
  medium_milling_cost : ℚ
  fine_milling_cost : ℚ
  material_cost : ℚ
  labor_costs : LaborCosts
  total_labor_cost : ℚ
  complexity_multiplier : ℚ
  size_multiplier : ℚ
  quantity_multiplier : ℚ
  block_size : Q3
  block_volume : ℚ
  coarse_volume : ℚ
  medium_volume : ℚ
  fine_volume : ℚ
  expedited_multiplier : ℚ
  expedited_description : Option String
  deriving DecidableEq

structure QuoteResult where
  per_unit_cost : ℚ
  lead_time_days : ℤ
  material_cost : ℚ
  machine_time_cost : ℚ
  total_cost : ℚ
  bounding_box : Q3
  volume : ℚ
  surface_area : ℚ
  complexity_score : ℚ
  breakdown : Breakdown
  expedited : Bool
  expedited_multiplier : ℚ
  deriving DecidableEq

/-- The successful branch of `CADQuotingEngine.calculate_costs` (everything
after the `best_block` check succeeds). -/
def mkQuote (m : MeshGeometry) (quantity : ℤ) (expedited : Option String)
    (best_block : Q3) : QuoteResult :=
  let volumes := calculate_volumes m
  let complexity_score := calculate_complexity_score m
  let block_volume := blockVolume best_block
  let coarse_volume := max 0 (block_volume - volumes.convex_hull_volume)
  let medium_volume := max 0 (volumes.convex_hull_volume - volumes.shrink_wrap_volume)
  let fine_volume := max 0 (volumes.shrink_wrap_volume - volumes.part_volume)
  let coarse_cost := coarse_volume * coarse_cost_per_mm3
  let medium_cost := medium_volume * medium_cost_per_mm3
  let fine_cost := fine_volume * fine_cost_per_mm3
  let material_cost := volumes.part_volume / 1000 * aluminum_density / 1000 *
    aluminum_price_per_kg
  let labor_costs := calculate_labor_costs m complexity_score quantity
  let total_labor_cost := labor_costs.total_labor_cost
  let complexity_multiplier := complexity_calibration (get_complexity_category complexity_score)
  let size_multiplier := size_calibration (get_size_category m.length)
  let machine_time_cost := (coarse_cost + medium_cost + fine_cost) *
    complexity_multiplier * size_multiplier
  let quantity_multiplier := get_quantity_multiplier quantity
  let composite := (machine_time_cost + material_cost + total_labor_cost) * quantity_multiplier
  let floored := if composite < min_price_per_part then min_price_per_part else composite
  let expCfg := expedited.bind expedited_options
  let expedited_multiplier := (expCfg.map (fun c => c.1)).getD 1
  let expedited_description := expCfg.map (fun c => c.2.2)
  let total_cost_per_unit := floored * expedited_multiplier
  let lead_time_days : ℤ :=
    if expCfg.isSome then
      if expedited = some "3_days" then 3
      else if expedited = some "4_days" then 4
      else if expedited = some "5_days" then 5
      else standardLeadTime complexity_score
    else standardLeadTime complexity_score
  { per_unit_cost := total_cost_per_unit
    lead_time_days := lead_time_days
    material_cost := material_cost
    machine_time_cost := machine_time_cost
    total_cost := total_cost_per_unit * (quantity : ℚ)
    bounding_box := (m.length, m.width, m.height)
    volume := volumes.part_volume
    surface_area := m.surface_area
    complexity_score := complexity_score
    breakdown :=
      { coarse_milling_cost := coarse_cost
        medium_milling_cost := medium_cost
        fine_milling_cost := fine_cost
        material_cost := material_cost
        labor_costs := labor_costs
        total_labor_cost := total_labor_cost
        complexity_multiplier := complexity_multiplier
        size_multiplier := size_multiplier
        quantity_multiplier := quantity_multiplier
        block_size := best_block
        block_volume := block_volume
        coarse_volume := coarse_volume
        medium_volume := medium_volume
        fine_volume := fine_volume
        expedited_multiplier := expedited_multiplier
        expedited_description := expedited_description }
    expedited := expedited.isSome
    expedited_multiplier := expedited_multiplier }

/-- Embeds `CADQuotingEngine.calculate_costs`.  The unused `part_name` parameter of the
source is omitted.  The single hard failure is the `ValueError` raised when no
catalog block fits the bounding box. -/
def calculate_costs (m : MeshGeometry) (quantity : ℤ) (expedited : Option String) :
    Except String QuoteResult :=
  match find_smallest_fitting_block (m.length, m.width, m.height) with
  | none => Except.error "Part is too large for available block sizes"
  | some best_block => Except.ok (mkQuote m quantity expedited best_block)

/- ---------------- concrete inputs used by witnesses and counterexamples ---------------- -/

/-- The end-to-end example mesh of the specification (§8): bounding box
(100, 80, 20) mm, volume 150000 mm³, surface area 30000 mm², convex-hull
volume 160000 mm³, 500 faces, 1500 edges. -/
def wMesh : MeshGeometry :=
  { length := 100, width := 80, height := 20, volume := 150000, surface_area := 30000
    convex_hull_volume := 160000, face_count := 500, edge_count := 1500 }

/-- A mesh whose longest bounding-box edge (width 300) is ≥ 200 mm while its
`length` is below 50 mm. -/
def cexMesh2 : MeshGeometry :=
  { length := 10, width := 300, height := 10, volume := 1000, surface_area := 100
    convex_hull_volume := 1000, face_count := 10, edge_count := 30 }

/-- A mesh with surface-area-to-volume ratio 0.3 and 2600 faces, on which
truncation and rounding of the scaled feature ratios differ. -/
def cexMesh3 : MeshGeometry :=
  { length := 1, width := 1, height := 1, volume := 10, surface_area := 3
    convex_hull_volume := 100, face_count := 2600, edge_count := 100 }

/-- A block is in the preferred waste band when its true waste ratio for the
given part dimensions lies in [0.2, 0.6] (spec §4.3). -/
def inBand (dims blk : Q3) : Prop :=
  0.2 ≤ wasteOf (partVolume dims) (blockVolume blk) ∧
  wasteOf (partVolume dims) (blockVolume blk) ≤ 0.6

/-- The selection key of spec §4.3: distance of the waste ratio from 0.3,
tie-broken by block volume. -/
def selKey (dims blk : Q3) : ℚ × ℚ :=
  (|wasteOf (partVolume dims) (blockVolume blk) - 0.3|, blockVolume blk)

/- ---------------- helper lemmas ---------------- -/

lemma pyInt_of_nonneg {x : ℚ} (h : 0 ≤ x) : pyInt x = ⌊x⌋ := if_pos h

lemma lexLe_refl (p : ℚ × ℚ) : lexLe p p := Or.inr ⟨rfl, le_refl _⟩

lemma lexLe_of_lexLt {p q : ℚ × ℚ} (h : lexLt p q) : lexLe p q := by
  rcases h with h | ⟨h1, h2⟩
  · exact Or.inl h
  · exact Or.inr ⟨h1, le_of_lt h2⟩

lemma lexLe_of_not_lexLt {p q : ℚ × ℚ} (h : ¬ lexLt p q) : lexLe q p := by
  unfold lexLt at h
  push_neg at h
  rcases lt_trichotomy q.1 p.1 with h1 | h1 | h1
  · exact Or.inl h1
  · exact Or.inr ⟨h1, h.2 h1.symm⟩
  · exact absurd h1 (not_lt.mpr h.1)

lemma lexLe_trans {p q r : ℚ × ℚ} (h1 : lexLe p q) (h2 : lexLe q r) : lexLe p r := by
  rcases h1 with h1 | ⟨h1a, h1b⟩ <;> rcases h2 with h2 | ⟨h2a, h2b⟩
  · exact Or.inl (lt_trans h1 h2)
  · exact Or.inl (h2a ▸ h1)
  · exact Or.inl (h1a ▸ h2)
  · exact Or.inr ⟨h1a.trans h2a, le_trans h1b h2b⟩

lemma minByKey_foldl_spec {α : Type} (key : α → ℚ) (xs : List α) (a : α) :
    (xs.foldl (fun best y => if key y < key best then y else best) a = a ∨
     xs.foldl (fun best y => if key y < key best then y else best) a ∈ xs) ∧
    key (xs.foldl (fun best y => if key y < key best then y else best) a) ≤ key a ∧
    ∀ y ∈ xs, key (xs.foldl (fun best y => if key y < key best then y else best) a) ≤ key y := by
  induction xs generalizing a with
  | nil => simp
  | cons x xs ih =>
    simp only [List.foldl_cons]
    obtain ⟨hmem, hle, hall⟩ := ih (if key x < key a then x else a)
    refine ⟨?_, ?_, ?_⟩
    · rcases hmem with h | h
      · rw [h]; split_ifs
        · exact Or.inr (List.mem_cons_self _ _)
        · exact Or.inl rfl
      · exact Or.inr (List.mem_cons_of_mem _ h)
    · refine le_trans hle ?_
      split_ifs with hxa
      · exact le_of_lt hxa
      · exact le_refl _
    · intro y hy
      rcases List.mem_cons.mp hy with rfl | hy
      · refine le_trans hle ?_
        split_ifs with hxa
        · exact le_refl _
        · exact le_of_not_lt hxa
      · exact hall y hy

lemma minByKey_spec {α : Type} (key : α → ℚ) (l : List α) (x : α)
    (h : minByKey key l = some x) : x ∈ l ∧ ∀ y ∈ l, key x ≤ key y := by
  cases l with
  | nil => simp [minByKey] at h
  | cons a as =>
    simp only [minByKey, Option.some.injEq] at h
    subst h
    obtain ⟨hmem, hle, hall⟩ := minByKey_foldl_spec key as a
    constructor
    · rcases hmem with h | h
      · rw [h]; exact List.mem_cons_self _ _
      · exact List.mem_cons_of_mem _ h
    · intro y hy
      rcases List.mem_cons.mp hy with rfl | hy
      · exact hle
      · exact hall y hy

lemma minByKey_eq_none_iff {α : Type} (key : α → ℚ) (l : List α) :
    minByKey key l = none ↔ l = [] := by
  cases l <;> simp [minByKey]

lemma minByKey2_foldl_spec {α : Type} (key : α → ℚ × ℚ) (xs : List α) (a : α) :
    (xs.foldl (fun best y => if lexLt (key y) (key best) then y else best) a = a ∨
     xs.foldl (fun best y => if lexLt (key y) (key best) then y else best) a ∈ xs) ∧
    lexLe (key (xs.foldl (fun best y => if lexLt (key y) (key best) then y else best) a)) (key a) ∧
    ∀ y ∈ xs,
      lexLe (key (xs.foldl (fun best y => if lexLt (key y) (key best) then y else best) a)) (key y) := by
  induction xs generalizing a with
  | nil => simpa using lexLe_refl (key a)
  | cons x xs ih =>
    simp only [List.foldl_cons]
    obtain ⟨hmem, hle, hall⟩ := ih (if lexLt (key x) (key a) then x else a)
    refine ⟨?_, ?_, ?_⟩
    · rcases hmem with h | h
      · rw [h]; split_ifs
        · exact Or.inr (List.mem_cons_self _ _)
        · exact Or.inl rfl
      · exact Or.inr (List.mem_cons_of_mem _ h)
    · refine lexLe_trans hle ?_
      split_ifs with hxa
      · exact lexLe_of_lexLt hxa
      · exact lexLe_refl _
    · intro y hy
      rcases List.mem_cons.mp hy with rfl | hy
      · refine lexLe_trans hle ?_
        split_ifs with hxa
        · exact lexLe_refl _
        · exact lexLe_of_not_lexLt hxa
      · exact hall y hy

lemma minByKey2_spec {α : Type} (key : α → ℚ × ℚ) (l : List α) (x : α)
    (h : minByKey2 key l = some x) : x ∈ l ∧ ∀ y ∈ l, lexLe (key x) (key y) := by
  cases l with
  | nil => simp [minByKey2] at h
  | cons a as =>
    simp only [minByKey2, Option.some.injEq] at h
    subst h
    obtain ⟨hmem, hle, hall⟩ := minByKey2_foldl_spec key as a
    constructor
    · rcases hmem with h | h
      · rw [h]; exact List.mem_cons_self _ _
      · exact List.mem_cons_of_mem _ h
    · intro y hy
      rcases List.mem_cons.mp hy with rfl | hy
      · exact hle
      · exact hall y hy

lemma minByKey2_eq_none_iff {α : Type} (key : α → ℚ × ℚ) (l : List α) :
    minByKey2 key l = none ↔ l = [] := by
  cases l <;> simp [minByKey2]

lemma mem_pass1 {dims : Q3} {x : Q3 × ℚ × ℚ} (h : x ∈ pass1_blocks dims) :
    x.1 ∈ block_sizes ∧ fitsIn dims x.1 ∧
    x.2.1 = wasteOf (partVolume dims) (blockVolume x.1) ∧
    x.2.2 = blockVolume x.1 ∧ x.2.1 ≤ 0.7 := by
  unfold pass1_blocks at h
  rcases List.mem_filterMap.mp h with ⟨b, hb, hfb⟩
  split_ifs at hfb with h1 h2
  · rw [Option.some.injEq] at hfb
    subst hfb
    exact ⟨hb, h1, rfl, rfl, h2⟩

lemma pass1_mem_of {dims b} (hb : b ∈ block_sizes) (hf : fitsIn dims b)
    (hw : wasteOf (partVolume dims) (blockVolume b) ≤ 0.7) :
    (b, wasteOf (partVolume dims) (blockVolume b), blockVolume b) ∈ pass1_blocks dims := by
  unfold pass1_blocks
  exact List.mem_filterMap.mpr ⟨b, hb, by rw [if_pos hf, if_pos hw]⟩

lemma mem_pass2 {dims : Q3} {x : Q3 × ℚ × ℚ} (h : x ∈ pass2_blocks dims) :
    x.1 ∈ block_sizes ∧ fitsIn dims x.1 ∧ x.2.1 = 0.8 ∧ x.2.2 = blockVolume x.1 := by
  unfold pass2_blocks at h
  rcases List.mem_filterMap.mp h with ⟨b, hb, hfb⟩
  split_ifs at hfb with h1
  · rw [Option.some.injEq] at hfb
    subst hfb
    exact ⟨hb, h1, rfl, rfl⟩

lemma pass2_mem_of {dims b} (hb : b ∈ block_sizes) (hf : fitsIn dims b) :
    (b, (0.8 : ℚ), blockVolume b) ∈ pass2_blocks dims := by
  unfold pass2_blocks
  exact List.mem_filterMap.mpr ⟨b, hb, by rw [if_pos hf]⟩

lemma mem_fitting {dims : Q3} {x : Q3 × ℚ × ℚ} (h : x ∈ fitting_blocks_of dims) :
    x.1 ∈ block_sizes ∧ fitsIn dims x.1 ∧ x.2.2 = blockVolume x.1 := by
  unfold fitting_blocks_of at h
  split_ifs at h
  · obtain ⟨h1, h2, _, h3⟩ := mem_pass2 h
    exact ⟨h1, h2, h3⟩
  · obtain ⟨h1, h2, _, h3, _⟩ := mem_pass1 h
    exact ⟨h1, h2, h3⟩

lemma mem_optimal {dims : Q3} {x : Q3 × ℚ × ℚ} (h : x ∈ optimal_blocks_of dims) :
    x ∈ fitting_blocks_of dims ∧ 0.2 ≤ x.2.1 ∧ x.2.1 ≤ 0.6 := by
  unfold optimal_blocks_of at h
  rcases List.mem_filterMap.mp h with ⟨b, hb, hfb⟩
  split_ifs at hfb with h1
  · rw [Option.some.injEq] at hfb
    subst hfb
    exact ⟨hb, h1⟩

lemma optimal_mem_of {dims : Q3} {x : Q3 × ℚ × ℚ} (hx : x ∈ fitting_blocks_of dims)
    (h1 : 0.2 ≤ x.2.1) (h2 : x.2.1 ≤ 0.6) : x ∈ optimal_blocks_of dims := by
  unfold optimal_blocks_of
  exact List.mem_filterMap.mpr ⟨x, hx, by rw [if_pos ⟨h1, h2⟩]⟩

lemma blockVolume_pos {b : Q3} (hb : b ∈ block_sizes) : 0 < blockVolume b := by
  fin_cases hb <;> norm_num [blockVolume]

lemma waste_le_imp {pv v : ℚ} (hv : 0 < v) (h : wasteOf pv v ≤ 0.7) : 0.3 * v ≤ pv := by
  unfold wasteOf at h
  rw [div_le_iff₀ hv] at h
  linarith

lemma waste_lt_imp_vol_lt {pv v1 v2 : ℚ} (hpv : 0 < pv) (h1 : 0 < v1) (h2 : 0 < v2)
    (h : wasteOf pv v1 < wasteOf pv v2) : v1 < v2 := by
  unfold wasteOf at h
  rw [div_lt_div_iff₀ h1 h2] at h
  nlinarith

lemma waste_le_of_vol_le {pv v1 v2 : ℚ} (hpv : 0 ≤ pv) (h1 : 0 < v1) (h2 : 0 < v2)
    (h : v1 ≤ v2) : wasteOf pv v1 ≤ wasteOf pv v2 := by
  unfold wasteOf
  rw [div_le_div_iff₀ h1 h2]
  nlinarith

lemma find_some_spec {dims blk : Q3} (h : find_smallest_fitting_block dims = some blk) :
    blk ∈ block_sizes ∧ fitsIn dims blk := by
  unfold find_smallest_fitting_block at h
  by_cases he : (fitting_blocks_of dims).isEmpty
  · rw [if_pos he] at h; exact absurd h (by simp)
  · rw [if_neg he] at h
    rcases hm : minByKey2 (fun b => (|b.2.1 - 0.3|, b.2.2)) (optimal_blocks_of dims) with _ | best
    · rw [hm] at h
      rcases hmk : minByKey (fun b => b.2.2) (fitting_blocks_of dims) with _ | mb
      · rw [hmk] at h; exact absurd h (by simp)
      · rw [hmk] at h
        simp only [Option.map_some', Option.some.injEq] at h
        subst h
        obtain ⟨hmem, _⟩ := minByKey_spec _ _ _ hmk
        obtain ⟨h1, h2, _⟩ := mem_fitting hmem
        exact ⟨h1, h2⟩
    · rw [hm] at h
      simp only [Option.some.injEq] at h
      subst h
      obtain ⟨hmem, _⟩ := minByKey2_spec _ _ _ hm
      obtain ⟨hfit, _, _⟩ := mem_optimal hmem
      obtain ⟨h1, h2, _⟩ := mem_fitting hfit
      exact ⟨h1, h2⟩

lemma find_eq_none_iff (dims : Q3) :
    find_smallest_fitting_block dims = none ↔ ∀ b ∈ block_sizes, ¬ fitsIn dims b := by
  constructor
  · intro h b hb hf
    unfold find_smallest_fitting_block at h
    by_cases he : (fitting_blocks_of dims).isEmpty
    · have hmem := pass2_mem_of hb hf
      unfold fitting_blocks_of at he
      by_cases hp1 : (pass1_blocks dims).isEmpty
      · rw [if_pos hp1] at he
        rw [List.isEmpty_iff] at he
        rw [he] at hmem
        exact absurd hmem (List.not_mem_nil _)
      · rw [if_neg hp1] at he
        exact hp1 he
    · rw [if_neg he] at h
      rcases hm : minByKey2 (fun b => (|b.2.1 - 0.3|, b.2.2)) (optimal_blocks_of dims) with _ | best
      · rw [hm] at h
        rcases hmk : minByKey (fun b => b.2.2) (fitting_blocks_of dims) with _ | mb
        · rw [minByKey_eq_none_iff] at hmk
          rw [← List.isEmpty_iff] at hmk
          exact he hmk
        · rw [hmk] at h; simp at h
      · rw [hm] at h; simp at h
  · intro hall
    have hp1 : pass1_blocks dims = [] := by
      rw [List.eq_nil_iff_forall_not_mem]
      intro x hx
      obtain ⟨h1, h2, _⟩ := mem_pass1 hx
      exact hall _ h1 h2
    have hp2 : pass2_blocks dims = [] := by
      rw [List.eq_nil_iff_forall_not_mem]
      intro x hx
      obtain ⟨h1, h2, _⟩ := mem_pass2 hx
      exact hall _ h1 h2
    unfold find_smallest_fitting_block fitting_blocks_of
    rw [hp1, hp2]
    simp

lemma find_band_spec {dims blk : Q3} (h : find_smallest_fitting_block dims = some blk)
    (hband : ∃ b ∈ block_sizes, fitsIn dims b ∧ inBand dims b) :
    inBand dims blk ∧ ∀ b ∈ block_sizes, fitsIn dims b → inBand dims b →
      lexLe (selKey dims blk) (selKey dims b) := by
  obtain ⟨b0, hb0, hf0, hbd0⟩ := hband
  have hw0 : wasteOf (partVolume dims) (blockVolume b0) ≤ 0.7 :=
    le_trans hbd0.2 (by norm_num)
  have ht0 := pass1_mem_of hb0 hf0 hw0
  have hp1ne : ¬ (pass1_blocks dims).isEmpty := by
    intro hcon
    rw [List.isEmpty_iff] at hcon
    rw [hcon] at ht0
    exact absurd ht0 (List.not_mem_nil _)
  have hfit_eq : fitting_blocks_of dims = pass1_blocks dims := by
    unfold fitting_blocks_of
    rw [if_neg hp1ne]
  have hopt0 : (b0, wasteOf (partVolume dims) (blockVolume b0), blockVolume b0) ∈
      optimal_blocks_of dims :=
    optimal_mem_of (hfit_eq ▸ ht0) hbd0.1 hbd0.2
  have hfitne : ¬ (fitting_blocks_of dims).isEmpty := by
    rw [hfit_eq]; exact hp1ne
  unfold find_smallest_fitting_block at h
  rw [if_neg hfitne] at h
  rcases hm : minByKey2 (fun b => (|b.2.1 - 0.3|, b.2.2)) (optimal_blocks_of dims) with _ | best
  · rw [minByKey2_eq_none_iff] at hm
    rw [hm] at hopt0
    exact absurd hopt0 (List.not_mem_nil _)
  · rw [hm] at h
    simp only [Option.some.injEq] at h
    subst h
    obtain ⟨hbestmem, hbestmin⟩ := minByKey2_spec _ _ _ hm
    obtain ⟨hbestfit, hb1, hb2⟩ := mem_optimal hbestmem
    rw [hfit_eq] at hbestfit
    obtain ⟨hbs, hbf, hwst, hvol, _⟩ := mem_pass1 hbestfit
    constructor
    · exact ⟨hwst ▸ hb1, hwst ▸ hb2⟩
    · intro b hb hf hbd
      have htb := pass1_mem_of hb hf (le_trans hbd.2 (by norm_num))
      have hob : (b, wasteOf (partVolume dims) (blockVolume b), blockVolume b) ∈
          optimal_blocks_of dims :=
        optimal_mem_of (hfit_eq ▸ htb) hbd.1 hbd.2
      have hkey := hbestmin _ hob
      unfold selKey
      rw [← hwst, ← hvol]
      exact hkey

lemma find_fallback_spec {dims blk : Q3} (h : find_smallest_fitting_block dims = some blk)
    (hnb : ∀ b ∈ block_sizes, fitsIn dims b → ¬ inBand dims b) :
    ∀ b ∈ block_sizes, fitsIn dims b → blockVolume blk ≤ blockVolume b := by
  have hopt : optimal_blocks_of dims = [] := by
    rw [List.eq_nil_iff_forall_not_mem]
    intro x hx
    obtain ⟨hxf, hx1, hx2⟩ := mem_optimal hx
    unfold fitting_blocks_of at hxf
    split_ifs at hxf with hp1
    · obtain ⟨_, _, hw, _⟩ := mem_pass2 hxf
      rw [hw] at hx2
      norm_num at hx2
    · obtain ⟨hbs, hbf, hw, _, _⟩ := mem_pass1 hxf
      exact hnb _ hbs hbf ⟨hw ▸ hx1, hw ▸ hx2⟩
  unfold find_smallest_fitting_block at h
  by_cases he : (fitting_blocks_of dims).isEmpty
  · rw [if_pos he] at h; exact absurd h (by simp)
  · rw [if_neg he] at h
    rw [hopt] at h
    rw [show minByKey2 (fun b => (|b.2.1 - 0.3|, b.2.2)) ([] : List (Q3 × ℚ × ℚ)) = none
      from rfl] at h
    rcases hmk : minByKey (fun b => b.2.2) (fitting_blocks_of dims) with _ | mb
    · rw [hmk] at h; simp at h
    · rw [hmk] at h
      simp only [Option.map_some', Option.some.injEq] at h
      subst h
      obtain ⟨hmbmem, hmbmin⟩ := minByKey_spec _ _ _ hmk
      intro b hb hf
      unfold fitting_blocks_of at hmbmem hmbmin
      by_cases hp1 : (pass1_blocks dims).isEmpty
      · rw [if_pos hp1] at hmbmem hmbmin
        have htb := pass2_mem_of hb hf
        have hkey := hmbmin _ htb
        obtain ⟨_, _, _, hmv⟩ := mem_pass2 hmbmem
        rw [hmv] at hkey
        exact hkey
      · rw [if_neg hp1] at hmbmem hmbmin
        obtain ⟨hmbs, hmbf, hmw, hmv, hmw7⟩ := mem_pass1 hmbmem
        by_cases hwb : wasteOf (partVolume dims) (blockVolume b) ≤ 0.7
        · have htb := pass1_mem_of hb hf hwb
          have hkey := hmbmin _ htb
          rw [hmv] at hkey
          exact hkey
        · push_neg at hwb
          have hvmb : 0 < blockVolume mb.1 := blockVolume_pos hmbs
          have hvb : 0 < blockVolume b := blockVolume_pos hb
          have hmw7' : wasteOf (partVolume dims) (blockVolume mb.1) ≤ 0.7 := hmw ▸ hmw7
          have hpv : 0 < partVolume dims := by
            have h3 := waste_le_imp hvmb hmw7'
            nlinarith
          have hlt : wasteOf (partVolume dims) (blockVolume mb.1) <
              wasteOf (partVolume dims) (blockVolume b) := lt_of_le_of_lt hmw7' hwb
          exact le_of_lt (waste_lt_imp_vol_lt hpv hvmb hvb hlt)

lemma calculate_costs_ok {m : MeshGeometry} {q : ℤ} {e : Option String} {r : QuoteResult}
    (h : calculate_costs m q e = Except.ok r) :
    ∃ blk, find_smallest_fitting_block (m.length, m.width, m.height) = some blk ∧
      r = mkQuote m q e blk := by
  unfold calculate_costs at h
  rcases hf : find_smallest_fitting_block (m.length, m.width, m.height) with _ | blk
  · rw [hf] at h; exact absurd h (by simp)
  · rw [hf] at h
    simp only [Except.ok.injEq] at h
    exact ⟨blk, rfl, h.symm⟩

lemma calculate_costs_error_iff (m : MeshGeometry) (q : ℤ) (e : Option String) :
    (∃ s, calculate_costs m q e = Except.error s) ↔
      find_smallest_fitting_block (m.length, m.width, m.height) = none := by
  unfold calculate_costs
  rcases hf : find_smallest_fitting_block (m.length, m.width, m.height) with _ | blk <;> simp

lemma one_le_expedited_multiplier (e : Option String) :
    1 ≤ ((e.bind expedited_options).map (fun c => c.1)).getD 1 := by
  rcases e with _ | s
  · exact le_refl _
  · show 1 ≤ ((expedited_options s).map (fun c => c.1)).getD 1
    unfold expedited_options
    split_ifs <;> norm_num

lemma holes_of_nonneg (m : MeshGeometry) : 0 ≤ holes_of m := by
  unfold holes_of
  split_ifs
  · exact le_trans zero_le_one (le_max_left _ _)
  · exact le_refl 0

lemma cavities_of_nonneg (m : MeshGeometry) : 0 ≤ cavities_of m := by
  unfold cavities_of
  split_ifs
  · exact le_trans zero_le_one (le_max_left _ _)
  · exact le_refl 0

lemma sharp_edges_of_nonneg (m : MeshGeometry) : 0 ≤ sharp_edges_of m := by
  unfold sharp_edges_of
  split_ifs
  · exact le_trans zero_le_one (le_max_left _ _)
  · exact le_refl 0

lemma pockets_of_nonneg (m : MeshGeometry) : 0 ≤ pockets_of m := by
  unfold pockets_of
  split_ifs
  · exact le_trans zero_le_one (le_max_left _ _)
  · exact le_trans zero_le_one (le_max_left _ _)
  · exact le_refl 0

lemma feature_score_nonneg (m : MeshGeometry) : 0 ≤ (detect_features m).feature_score := by
  unfold detect_features
  split_ifs
  · norm_num
  · have h1 := holes_of_nonneg m
    have h2 := cavities_of_nonneg m
    have h3 := sharp_edges_of_nonneg m
    have h4 := pockets_of_nonneg m
    have c1 : (0 : ℚ) ≤ (holes_of m : ℚ) := Int.cast_nonneg.mpr h1
    have c2 : (0 : ℚ) ≤ (cavities_of m : ℚ) := Int.cast_nonneg.mpr h2
    have c3 : (0 : ℚ) ≤ (sharp_edges_of m : ℚ) := Int.cast_nonneg.mpr h3
    have c4 : (0 : ℚ) ≤ (pockets_of m : ℚ) := Int.cast_nonneg.mpr h4
    show (0 : ℚ) ≤ (holes_of m : ℚ) * 0.8 + (cavities_of m : ℚ) * 0.6 +
      (sharp_edges_of m : ℚ) * 0.4 + (pockets_of m : ℚ) * 0.5
    nlinarith

lemma sa_vol_frac_nonneg {m : MeshGeometry} (h : 0 ≤ m.surface_area) : 0 ≤ sa_vol_frac m := by
  unfold sa_vol_frac
  split_ifs
  · exact div_nonneg h (abs_nonneg _)
  · exact le_refl 0

lemma score_bounds (m : MeshGeometry) (h : 0 ≤ m.surface_area) :
    0 ≤ calculate_complexity_score m ∧ calculate_complexity_score m ≤ 8 := by
  constructor
  case right =>
    unfold calculate_complexity_score
    exact le_trans (min_le_right _ _) (by norm_num)
  unfold calculate_complexity_score
  refine le_min ?_ (by norm_num)
  have t1 : (0 : ℚ) ≤ min (sa_vol_frac m * 0.15) 3.0 :=
    le_min (by nlinarith [sa_vol_frac_nonneg h]) (by norm_num)
  have t2 : (0 : ℚ) ≤ min (((m.face_count : ℚ) / 1000) * 2.0) 4.0 :=
    le_min (by positivity) (by norm_num)
  have t3 : (0 : ℚ) ≤ min (((m.edge_count : ℚ) / 1000) * 2.0) 3.0 :=
    le_min (by positivity) (by norm_num)
  have t4 : (0 : ℚ) ≤ min ((detect_features m).feature_score * 0.3) 2.0 :=
    le_min (by nlinarith [feature_score_nonneg m]) (by norm_num)
  linarith

lemma size_multiplier_eq (x : ℚ) :
    size_calibration (get_size_category x) =
      (if x < 50 then (1.15 : ℚ) else if x < 200 then 1 else 0.9) := by
  unfold get_size_category
  split_ifs <;> simp [size_calibration] <;> norm_num

lemma complexity_multiplier_cases (s : ℚ) :
    complexity_calibration (get_complexity_category s) = 0.85 ∨
    complexity_calibration (get_complexity_category s) = 1 ∨
    complexity_calibration (get_complexity_category s) = 1.35 := by
  unfold get_complexity_category
  split_ifs
  · left; simp [complexity_calibration]
  · right; left; simp [complexity_calibration]; norm_num
  · right; right; simp [complexity_calibration]

lemma size_multiplier_cases (x : ℚ) :
    size_calibration (get_size_category x) = 1.15 ∨
    size_calibration (get_size_category x) = 1 ∨
    size_calibration (get_size_category x) = 0.9 := by
  unfold get_size_category
  split_ifs
  · left; simp [size_calibration]
  · right; left; simp [size_calibration]; norm_num
  · right; right; simp [size_calibration]

lemma interpLoop_none_of_gt {q : ℤ} (h : 100 < q) : interpLoop qmTiers q = none := by
  simp only [qmTiers, interpLoop]
  repeat rw [if_neg (by omega)]

lemma find40 : find_smallest_fitting_block (40, 40, 40) = some (50, 50, 50) := by
  norm_num [find_smallest_fitting_block, fitting_blocks_of, pass1_blocks, pass2_blocks,
    optimal_blocks_of, block_sizes, fitsIn, sort3, sort2, partVolume, blockVolume, wasteOf,
    minByKey, minByKey2, lexLt, List.filterMap]

lemma findW : find_smallest_fitting_block (100, 80, 20) = some (100, 100, 100) := by
  norm_num [find_smallest_fitting_block, fitting_blocks_of, pass1_blocks, pass2_blocks,
    optimal_blocks_of, block_sizes, fitsIn, sort3, sort2, partVolume, blockVolume, wasteOf,
    minByKey, minByKey2, lexLt, List.filterMap]

lemma findC2 : find_smallest_fitting_block (10, 300, 10) = some (300, 250, 250) := by
  norm_num [find_smallest_fitting_block, fitting_blocks_of, pass1_blocks, pass2_blocks,
    optimal_blocks_of, block_sizes, fitsIn, sort3, sort2, partVolume, blockVolume, wasteOf,
    minByKey, minByKey2, lexLt, List.filterMap]

lemma calc_w : calculate_costs wMesh 1 none = Except.ok (mkQuote wMesh 1 none (100, 100, 100)) := by
  unfold calculate_costs
  rw [show (wMesh.length, wMesh.width, wMesh.height) = ((100 : ℚ), (80 : ℚ), (20 : ℚ)) from rfl]
  rw [findW]

lemma calc_w2 : calculate_costs wMesh 2 none = Except.ok (mkQuote wMesh 2 none (100, 100, 100)) := by
  unfold calculate_costs
  rw [show (wMesh.length, wMesh.width, wMesh.height) = ((100 : ℚ), (80 : ℚ), (20 : ℚ)) from rfl]
  rw [findW]

lemma calc_cex2 :
    calculate_costs cexMesh2 1 none = Except.ok (mkQuote cexMesh2 1 none (300, 250, 250)) := by
  unfold calculate_costs
  rw [show (cexMesh2.length, cexMesh2.width, cexMesh2.height) =
    ((10 : ℚ), (300 : ℚ), (10 : ℚ)) from rfl]
  rw [findC2]

/- ---------------- claim theorems ---------------- -/

/-- C1 counterexample: the multiplier is not non-increasing over all
quantities — between quantity 100 (multiplier 0.72) and quantity 101 the
interpolation loop falls through and the source returns the fallback 1.0. -/
theorem C1_counterexample :
    get_quantity_multiplier 100 = 0.72 ∧ get_quantity_multiplier 101 = 1 ∧
    ¬ get_quantity_multiplier 101 ≤ get_quantity_multiplier 100 := by
  refine ⟨?_, ?_, ?_⟩ <;> norm_num [get_quantity_multiplier, interpLoop, qmTiers]

lemma qm_interp (q : ℤ) (i : ℕ) (hi : i + 1 < qmTiers.length)
    (hl : (qmTiers.getD i (1, 1)).1 ≤ q) (hu : q ≤ (qmTiers.getD (i + 1) (1, 1)).1) :
    get_quantity_multiplier q = (qmTiers.getD i (1, 1)).2 +
      ((qmTiers.getD (i + 1) (1, 1)).2 - (qmTiers.getD i (1, 1)).2) *
        (((q - (qmTiers.getD i (1, 1)).1 : ℤ) : ℚ) /
          (((qmTiers.getD (i + 1) (1, 1)).1 - (qmTiers.getD i (1, 1)).1 : ℤ) : ℚ)) := by
  have hi10 : i < 10 := by simp [qmTiers] at hi; omega
  interval_cases i <;>
    simp only [qmTiers, List.getD_cons_zero, List.getD_cons_succ] at hl hu ⊢ <;>
    (rcases eq_or_lt_of_le hl with heq | hlt
     · subst heq
       norm_num [get_quantity_multiplier, interpLoop, qmTiers]
     · rcases eq_or_lt_of_le hu with hequ | hltu
       · subst hequ
         norm_num [get_quantity_multiplier, interpLoop, qmTiers]
       · unfold get_quantity_multiplier
         rw [if_neg (by omega), if_neg (by omega)]
         simp only [qmTiers, interpLoop]
         repeat rw [if_neg (by omega)]
         first
         | exact absurd hltu (by omega)
         | (rw [if_pos ⟨by omega, by omega⟩]
            simp only [Option.getD_some]
            try norm_num))

lemma qm_antitone_step (q : ℤ) (h1 : 1 ≤ q) (h2 : q ≤ 99) :
    get_quantity_multiplier (q + 1) ≤ get_quantity_multiplier q := by
  have step : ∀ i : ℕ, i + 1 < qmTiers.length →
      (qmTiers.getD i (1, 1)).1 ≤ q → q + 1 ≤ (qmTiers.getD (i + 1) (1, 1)).1 →
      (qmTiers.getD (i + 1) (1, 1)).2 ≤ (qmTiers.getD i (1, 1)).2 →
      (qmTiers.getD i (1, 1)).1 < (qmTiers.getD (i + 1) (1, 1)).1 →
      get_quantity_multiplier (q + 1) ≤ get_quantity_multiplier q := by
    intro i hi hl hu hm hlu
    rw [qm_interp q i hi hl (by omega), qm_interp (q + 1) i hi (by omega) hu]
    have hd : (0 : ℚ) <
        (((qmTiers.getD (i + 1) (1, 1)).1 - (qmTiers.getD i (1, 1)).1 : ℤ) : ℚ) := by
      exact_mod_cast sub_pos.mpr hlu
    have hs : (qmTiers.getD (i + 1) (1, 1)).2 - (qmTiers.getD i (1, 1)).2 ≤ 0 := by linarith
    have hab : ((q - (qmTiers.getD i (1, 1)).1 : ℤ) : ℚ) ≤
        ((q + 1 - (qmTiers.getD i (1, 1)).1 : ℤ) : ℚ) := by
      have : (q - (qmTiers.getD i (1, 1)).1 : ℤ) ≤ (q + 1 - (qmTiers.getD i (1, 1)).1 : ℤ) := by
        omega
      exact_mod_cast this
    rw [div_eq_mul_inv, div_eq_mul_inv]
    have hinv : 0 ≤
        (((qmTiers.getD (i + 1) (1, 1)).1 - (qmTiers.getD i (1, 1)).1 : ℤ) : ℚ)⁻¹ :=
      inv_nonneg.mpr (le_of_lt hd)
    have h5 := mul_le_mul_of_nonpos_left hab hs
    have h6 := mul_le_mul_of_nonneg_right h5 hinv
    ring_nf at h6 ⊢
    linarith [h6]
  rcases show (1 ≤ q ∧ q + 1 ≤ 2) ∨ (2 ≤ q ∧ q + 1 ≤ 3) ∨ (3 ≤ q ∧ q + 1 ≤ 4) ∨
      (4 ≤ q ∧ q + 1 ≤ 5) ∨ (5 ≤ q ∧ q + 1 ≤ 10) ∨ (10 ≤ q ∧ q + 1 ≤ 15) ∨
      (15 ≤ q ∧ q + 1 ≤ 20) ∨ (20 ≤ q ∧ q + 1 ≤ 25) ∨ (25 ≤ q ∧ q + 1 ≤ 50) ∨
      (50 ≤ q ∧ q + 1 ≤ 100) from by omega with
    ⟨ha, hb⟩ | ⟨ha, hb⟩ | ⟨ha, hb⟩ | ⟨ha, hb⟩ | ⟨ha, hb⟩ | ⟨ha, hb⟩ | ⟨ha, hb⟩ | ⟨ha, hb⟩ | ⟨ha, hb⟩ | ⟨ha, hb⟩
  · exact step 0 (by norm_num [qmTiers])
      (by simpa [qmTiers, List.getD_cons_zero, List.getD_cons_succ] using ha)
      (by simpa [qmTiers, List.getD_cons_zero, List.getD_cons_succ] using hb)
      (by norm_num [qmTiers, List.getD_cons_zero, List.getD_cons_succ])
      (by norm_num [qmTiers, List.getD_cons_zero, List.getD_cons_succ])
  · exact step 1 (by norm_num [qmTiers])
      (by simpa [qmTiers, List.getD_cons_zero, List.getD_cons_succ] using ha)
      (by simpa [qmTiers, List.getD_cons_zero, List.getD_cons_succ] using hb)
      (by norm_num [qmTiers, List.getD_cons_zero, List.getD_cons_succ])
      (by norm_num [qmTiers, List.getD_cons_zero, List.getD_cons_succ])
  · exact step 2 (by norm_num [qmTiers])
      (by simpa [qmTiers, List.getD_cons_zero, List.getD_cons_succ] using ha)
      (by simpa [qmTiers, List.getD_cons_zero, List.getD_cons_succ] using hb)
      (by norm_num [qmTiers, List.getD_cons_zero, List.getD_cons_succ])
      (by norm_num [qmTiers, List.getD_cons_zero, List.getD_cons_succ])
  · exact step 3 (by norm_num [qmTiers])
      (by simpa [qmTiers, List.getD_cons_zero, List.getD_cons_succ] using ha)
      (by simpa [qmTiers, List.getD_cons_zero, List.getD_cons_succ] using hb)
      (by norm_num [qmTiers, List.getD_cons_zero, List.getD_cons_succ])
      (by norm_num [qmTiers, List.getD_cons_zero, List.getD_cons_succ])
  · exact step 4 (by norm_num [qmTiers])
      (by simpa [qmTiers, List.getD_cons_zero, List.getD_cons_succ] using ha)
      (by simpa [qmTiers, List.getD_cons_zero, List.getD_cons_succ] using hb)
      (by norm_num [qmTiers, List.getD_cons_zero, List.getD_cons_succ])
      (by norm_num [qmTiers, List.getD_cons_zero, List.getD_cons_succ])
  · exact step 5 (by norm_num [qmTiers])
      (by simpa [qmTiers, List.getD_cons_zero, List.getD_cons_succ] using ha)
      (by simpa [qmTiers, List.getD_cons_zero, List.getD_cons_succ] using hb)
      (by norm_num [qmTiers, List.getD_cons_zero, List.getD_cons_succ])
      (by norm_num [qmTiers, List.getD_cons_zero, List.getD_cons_succ])
  · exact step 6 (by norm_num [qmTiers])
      (by simpa [qmTiers, List.getD_cons_zero, List.getD_cons_succ] using ha)
      (by simpa [qmTiers, List.getD_cons_zero, List.getD_cons_succ] using hb)
      (by norm_num [qmTiers, List.getD_cons_zero, List.getD_cons_succ])
      (by norm_num [qmTiers, List.getD_cons_zero, List.getD_cons_succ])
  · exact step 7 (by norm_num [qmTiers])
      (by simpa [qmTiers, List.getD_cons_zero, List.getD_cons_succ] using ha)
      (by simpa [qmTiers, List.getD_cons_zero, List.getD_cons_succ] using hb)
      (by norm_num [qmTiers, List.getD_cons_zero, List.getD_cons_succ])
      (by norm_num [qmTiers, List.getD_cons_zero, List.getD_cons_succ])
  · exact step 8 (by norm_num [qmTiers])
      (by simpa [qmTiers, List.getD_cons_zero, List.getD_cons_succ] using ha)
      (by simpa [qmTiers, List.getD_cons_zero, List.getD_cons_succ] using hb)
      (by norm_num [qmTiers, List.getD_cons_zero, List.getD_cons_succ])
      (by norm_num [qmTiers, List.getD_cons_zero, List.getD_cons_succ])
  · exact step 9 (by norm_num [qmTiers])
      (by simpa [qmTiers, List.getD_cons_zero, List.getD_cons_succ] using ha)
      (by simpa [qmTiers, List.getD_cons_zero, List.getD_cons_succ] using hb)
      (by norm_num [qmTiers, List.getD_cons_zero, List.getD_cons_succ])
      (by norm_num [qmTiers, List.getD_cons_zero, List.getD_cons_succ])

/-- C1 (amended): `get_quantity_multiplier` maps quantity 1 to 1.0, is
non-increasing across the control-point range 1..100, returns the last
control point's 0.72 for every quantity ≥ 5000, returns 1.0 below quantity 1,
and linearly interpolates by fractional position between adjacent control
points of the tier table.  However, for quantities strictly between 100 and
5000 the interpolation loop finds no bracketing pair and the function returns
the fallback value 1.0, so it is not non-increasing over all quantities. -/
theorem C1_quantity_multiplier (q : ℤ) (i : ℕ) :
    get_quantity_multiplier 1 = 1
    ∧ (1 ≤ q → q ≤ 99 → get_quantity_multiplier (q + 1) ≤ get_quantity_multiplier q)
    ∧ (5000 ≤ q → get_quantity_multiplier q = 0.72)
    ∧ (q < 1 → get_quantity_multiplier q = 1)
    ∧ (100 < q → q < 5000 → get_quantity_multiplier q = 1)
    ∧ (i + 1 < qmTiers.length → (qmTiers.getD i (1, 1)).1 ≤ q →
        q ≤ (qmTiers.getD (i + 1) (1, 1)).1 →
        get_quantity_multiplier q = (qmTiers.getD i (1, 1)).2 +
          ((qmTiers.getD (i + 1) (1, 1)).2 - (qmTiers.getD i (1, 1)).2) *
            (((q - (qmTiers.getD i (1, 1)).1 : ℤ) : ℚ) /
              (((qmTiers.getD (i + 1) (1, 1)).1 - (qmTiers.getD i (1, 1)).1 : ℤ) : ℚ))) := by
  refine ⟨by norm_num [get_quantity_multiplier, interpLoop, qmTiers],
    qm_antitone_step q, ?_, ?_, ?_, qm_interp q i⟩
  · intro h
    unfold get_quantity_multiplier
    rw [if_neg (by omega), if_pos h]
  · intro h
    unfold get_quantity_multiplier
    rw [if_pos h]
    norm_num
  · intro h1 h2
    unfold get_quantity_multiplier
    rw [if_neg (by omega), if_neg (by omega), interpLoop_none_of_gt h1]
    norm_num

/-- C1 witness: the amended theorem applied at concrete quantities. -/
theorem C1_witness :
    get_quantity_multiplier 1 = 1 ∧
    get_quantity_multiplier 8 ≤ get_quantity_multiplier 7 ∧
    get_quantity_multiplier 6000 = 0.72 ∧
    get_quantity_multiplier 0 = 1 ∧
    get_quantity_multiplier 200 = 1 ∧
    get_quantity_multiplier 7 = 0.868 := by
  refine ⟨(C1_quantity_multiplier 7 4).1,
    (C1_quantity_multiplier 7 4).2.1 (by norm_num) (by norm_num),
    (C1_quantity_multiplier 6000 4).2.2.1 (by norm_num),
    (C1_quantity_multiplier 0 4).2.2.2.1 (by norm_num),
    (C1_quantity_multiplier 200 4).2.2.2.2.1 (by norm_num) (by norm_num), ?_⟩
  have h := (C1_quantity_multiplier 7 4).2.2.2.2.2
    (by norm_num [qmTiers])
    (by norm_num [qmTiers, List.getD_cons_zero, List.getD_cons_succ])
    (by norm_num [qmTiers, List.getD_cons_zero, List.getD_cons_succ])
  rw [h]
  norm_num [qmTiers, List.getD_cons_zero, List.getD_cons_succ]

/-- C2 counterexample: a mesh with bounding box 10 × 300 × 10 mm has longest
edge 300 ≥ 200 (the claim demands size multiplier 0.9), yet the engine keys
the size category off the `length` field alone (10 < 50 ⇒ small) and applies
1.15. -/
theorem C2_counterexample :
    (200 : ℚ) ≤ max cexMesh2.length (max cexMesh2.width cexMesh2.height)
    ∧ (calculate_costs cexMesh2 1 none).toOption.map
        (fun r => r.breakdown.size_multiplier) = some 1.15
    ∧ (1.15 : ℚ) ≠ 0.9 := by
  refine ⟨by norm_num [cexMesh2], ?_, by norm_num⟩
  rw [calc_cex2]
  show some (mkQuote cexMesh2 1 none (300, 250, 250)).breakdown.size_multiplier = some 1.15
  norm_num [mkQuote, cexMesh2, size_calibration, get_size_category]

/-- C2 (amended): the size multiplier applied to `machine_time_cost` in
`calculate_costs` is keyed off the bounding box's `length` entry (the x-axis
extent), not the longest edge: it is 1.15 when `length` < 50 mm, 0.9 when
`length` ≥ 200 mm, and 1.0 otherwise. -/
theorem C2_size_multiplier (m : MeshGeometry) (q : ℤ) (e : Option String) (r : QuoteResult)
    (h : calculate_costs m q e = Except.ok r) :
    r.breakdown.size_multiplier =
      (if m.length < 50 then (1.15 : ℚ) else if m.length < 200 then 1 else 0.9) := by
  obtain ⟨blk, hf, rfl⟩ := calculate_costs_ok h
  show size_calibration (get_size_category m.length) = _
  exact size_multiplier_eq m.length

/-- C2 witness: the amended theorem applied to the specification's example
mesh (bounding box 100 × 80 × 20 mm). -/
theorem C2_witness :
    (mkQuote wMesh 1 none (100, 100, 100)).breakdown.size_multiplier =
      (if wMesh.length < 50 then (1.15 : ℚ) else if wMesh.length < 200 then 1 else 0.9) :=
  C2_size_multiplier wMesh 1 none _ calc_w

/-- C3 counterexample: on a mesh with surface-area-to-volume ratio 0.3
(> 0.15) and 2600 faces (> 2000), the engine truncates the scaled ratios
(`int(1.5)` = 1, `int(2.6)` = 2) while the claim's rounded formulas give
round(1.5) = 2 and round(2.6) = 3. -/
theorem C3_counterexample :
    0.15 < cexMesh3.surface_area / cexMesh3.volume
    ∧ (detect_features cexMesh3).holes ≠
        max 1 (min 5 (round (cexMesh3.surface_area / cexMesh3.volume * 5)))
    ∧ 2000 < cexMesh3.face_count
    ∧ (detect_features cexMesh3).pockets ≠
        max 1 (min 8 (round ((cexMesh3.face_count : ℚ) / 1000))) := by
  refine ⟨by norm_num [cexMesh3], ?_, by norm_num [cexMesh3], ?_⟩
  · have h1 : (detect_features cexMesh3).holes = 1 := by
      norm_num [detect_features, cexMesh3, holes_of, sa_vol_frac, pyInt]
    have h2 : max 1 (min 5 (round (cexMesh3.surface_area / cexMesh3.volume * 5))) = 2 := by
      norm_num [cexMesh3, round_eq]
    rw [h1, h2]
    norm_num
  · have h1 : (detect_features cexMesh3).pockets = 2 := by
      norm_num [detect_features, cexMesh3, pockets_of, pyInt]
    have h2 : max 1 (min 8 (round ((cexMesh3.face_count : ℚ) / 1000))) = 3 := by
      norm_num [cexMesh3, round_eq]
    rw [h1, h2]
    norm_num

/-- C3 (amended): for every mesh with positive volume, positive face count and
volume at most the convex-hull volume, `detect_features` computes each feature
count by truncating (flooring, the scaled ratios being non-negative) rather
than rounding: holes = clamp(⌊ratio × 5⌋, 1, 5) when the surface-area-to-volume
ratio exceeds 0.15 (else 0); cavities = clamp(⌊cavity_ratio × 3⌋, 1, 3) at
threshold 0.2; sharp_edges = clamp(⌊edge_face_ratio × 1.5⌋, 1, 4) at threshold
3.0; pockets = clamp(⌊face_count/1000⌋, 1, 8) when face_count > 2000, else
clamp(⌊face_count/800⌋, 1, 4) when face_count > 1000, else 0. -/
theorem C3_detect_features (m : MeshGeometry) (hv : 0 < m.volume) (hf : 0 < m.face_count)
    (hinv : m.volume ≤ m.convex_hull_volume) :
    (detect_features m).holes =
      (if 0.15 < m.surface_area / m.volume then
        max 1 (min 5 ⌊m.surface_area / m.volume * 5⌋) else 0)
    ∧ (detect_features m).cavities =
      (if 0.2 < 1 - m.volume / m.convex_hull_volume then
        max 1 (min 3 ⌊(1 - m.volume / m.convex_hull_volume) * 3⌋) else 0)
    ∧ (detect_features m).sharp_edges =
      (if 3.0 < (m.edge_count : ℚ) / (m.face_count : ℚ) then
        max 1 (min 4 ⌊(m.edge_count : ℚ) / (m.face_count : ℚ) * 1.5⌋) else 0)
    ∧ (detect_features m).pockets =
      (if 2000 < m.face_count then max 1 (min 8 ⌊(m.face_count : ℚ) / 1000⌋)
       else if 1000 < m.face_count then max 1 (min 4 ⌊(m.face_count : ℚ) / 800⌋) else 0) := by
  have hh : 0 < m.convex_hull_volume := lt_of_lt_of_le hv hinv
  have hva : |m.volume| = m.volume := abs_of_pos hv
  have hha : |m.convex_hull_volume| = m.convex_hull_volume := abs_of_pos hh
  have hhne : ¬ |m.convex_hull_volume| = 0 := by rw [hha]; exact ne_of_gt hh
  have hfrac : sa_vol_frac m = m.surface_area / m.volume := by
    unfold sa_vol_frac
    rw [hva, if_pos hv]
  unfold detect_features
  rw [if_neg hhne]
  refine ⟨?_, ?_, ?_, ?_⟩
  · show holes_of m = _
    unfold holes_of
    rw [hfrac]
    split_ifs with hcond
    · rw [pyInt_of_nonneg (by nlinarith)]
    · rfl
  · show cavities_of m = _
    unfold cavities_of cavity_frac
    rw [hva, hha]
    split_ifs with hcond
    · rw [pyInt_of_nonneg (by nlinarith)]
    · rfl
  · show sharp_edges_of m = _
    unfold sharp_edges_of edge_face_frac
    rw [if_pos hf]
    split_ifs with hcond
    · rw [pyInt_of_nonneg (by nlinarith)]
    · rfl
  · show pockets_of m = _
    unfold pockets_of
    split_ifs with h1 h2
    · rw [pyInt_of_nonneg (by positivity)]
    · rw [pyInt_of_nonneg (by positivity)]
    · rfl

/-- C3 witness: the amended theorem applied to the specification's example
mesh (ratio 0.2, 500 faces, 1500 edges). -/
theorem C3_witness :
    (detect_features wMesh).holes =
      (if 0.15 < wMesh.surface_area / wMesh.volume then
        max 1 (min 5 ⌊wMesh.surface_area / wMesh.volume * 5⌋) else 0)
    ∧ (detect_features wMesh).cavities =
      (if 0.2 < 1 - wMesh.volume / wMesh.convex_hull_volume then
        max 1 (min 3 ⌊(1 - wMesh.volume / wMesh.convex_hull_volume) * 3⌋) else 0)
    ∧ (detect_features wMesh).sharp_edges =
      (if 3.0 < (wMesh.edge_count : ℚ) / (wMesh.face_count : ℚ) then
        max 1 (min 4 ⌊(wMesh.edge_count : ℚ) / (wMesh.face_count : ℚ) * 1.5⌋) else 0)
    ∧ (detect_features wMesh).pockets =
      (if 2000 < wMesh.face_count then max 1 (min 8 ⌊(wMesh.face_count : ℚ) / 1000⌋)
       else if 1000 < wMesh.face_count then
        max 1 (min 4 ⌊(wMesh.face_count : ℚ) / 800⌋) else 0) :=
  C3_detect_features wMesh (by norm_num [wMesh]) (by norm_num [wMesh]) (by norm_num [wMesh])

/-- C4: for every successful quote at any quantity ≥ 1 and any expedited tier,
the per-unit cost is at least the $200 floor — the floor is applied before the
expedited multiplier, and every expedited multiplier is ≥ 1. -/
theorem C4_price_floor (m : MeshGeometry) (q : ℤ) (e : Option String) (r : QuoteResult)
    (hq : 1 ≤ q) (h : calculate_costs m q e = Except.ok r) : 200 ≤ r.per_unit_cost := by
  obtain ⟨blk, hf, rfl⟩ := calculate_costs_ok h
  have hem := one_le_expedited_multiplier e
  simp only [mkQuote]
  split_ifs with hc
  · unfold min_price_per_part
    nlinarith [hem]
  · push_neg at hc
    unfold min_price_per_part at hc
    nlinarith [hem, hc]

/-- C4 witness: the specification's example mesh at quantity 1 with no
expedited tier. -/
theorem C4_witness : 200 ≤ (mkQuote wMesh 1 none (100, 100, 100)).per_unit_cost :=
  C4_price_floor wMesh 1 none _ (by norm_num) calc_w

/-- C5: `find_smallest_fitting_block` returns `none` exactly when no catalog
block dominates the part's sorted dimensions (and `calculate_costs` raises its
single hard failure exactly then); a returned block always fits; when some
fitting block has true waste ratio in [0.2, 0.6] the returned block is in that
band and minimizes (|waste − 0.3|, block_volume) lexicographically over the
band; otherwise the returned block has the smallest volume among all fitting
blocks. -/
theorem C5_stock_selector (dims blk : Q3) (m : MeshGeometry) (q : ℤ) (e : Option String) :
    (find_smallest_fitting_block dims = none ↔ ∀ b ∈ block_sizes, ¬ fitsIn dims b)
    ∧ (find_smallest_fitting_block dims = some blk →
        blk ∈ block_sizes ∧ fitsIn dims blk
        ∧ ((∃ b ∈ block_sizes, fitsIn dims b ∧ inBand dims b) →
            inBand dims blk ∧ ∀ b ∈ block_sizes, fitsIn dims b → inBand dims b →
              lexLe (selKey dims blk) (selKey dims b))
        ∧ ((∀ b ∈ block_sizes, fitsIn dims b → ¬ inBand dims b) →
            ∀ b ∈ block_sizes, fitsIn dims b → blockVolume blk ≤ blockVolume b))
    ∧ ((∃ s, calculate_costs m q e = Except.error s) ↔
        find_smallest_fitting_block (m.length, m.width, m.height) = none) := by
  refine ⟨find_eq_none_iff dims, ?_, calculate_costs_error_iff m q e⟩
  intro h
  obtain ⟨h1, h2⟩ := find_some_spec h
  exact ⟨h1, h2, find_band_spec h, find_fallback_spec h⟩

/-- C5 witness: for a 40 × 40 × 40 mm part the selector returns the 50 mm cube,
which fits and lies in the preferred waste band (waste 0.488). -/
theorem C5_witness : fitsIn (40, 40, 40) (50, 50, 50) ∧ inBand (40, 40, 40) (50, 50, 50) := by
  have h := (C5_stock_selector (40, 40, 40) (50, 50, 50) wMesh 1 none).2.1 find40
  refine ⟨h.2.1, (h.2.2.1 ⟨(50, 50, 50), ?_, ?_, ?_⟩).1⟩
  · simp [block_sizes]
  · norm_num [fitsIn, sort3, sort2]
  · norm_num [inBand, wasteOf, partVolume, blockVolume]

lemma mkQuote_lead_time (m : MeshGeometry) (q : ℤ) (e : Option String) (blk : Q3) :
    (mkQuote m q e blk).lead_time_days =
      (if (e.bind expedited_options).isSome then
        (if e = some "3_days" then 3 else if e = some "4_days" then 4
         else if e = some "5_days" then 5 else standardLeadTime (calculate_complexity_score m))
       else standardLeadTime (calculate_complexity_score m)) := rfl

lemma mkQuote_unrecognized (m : MeshGeometry) (q : ℤ) (s : String) (blk : Q3)
    (hs : expedited_options s = none) :
    mkQuote m q (some s) blk = { mkQuote m q none blk with expedited := true } := by
  simp only [mkQuote, Option.some_bind, Option.none_bind, hs]
  rfl

/-- C6: expedited tiers pin the lead time to 3/4/5 days regardless of the
complexity score, and an unrecognized expedited string behaves exactly like no
expediting — same cost (no multiplier), same standard score-bucketed lead time,
and no exception (only the `expedited` flag, which records `expedited is not
None`, differs). -/
theorem C6_expedited (m : MeshGeometry) (q : ℤ) (s : String)
    (hs : expedited_options s = none) :
    ((calculate_costs m q (some "3_days")).toOption.map QuoteResult.lead_time_days =
      (calculate_costs m q (some "3_days")).toOption.map (fun _ => (3 : ℤ)))
    ∧ ((calculate_costs m q (some "4_days")).toOption.map QuoteResult.lead_time_days =
      (calculate_costs m q (some "4_days")).toOption.map (fun _ => (4 : ℤ)))
    ∧ ((calculate_costs m q (some "5_days")).toOption.map QuoteResult.lead_time_days =
      (calculate_costs m q (some "5_days")).toOption.map (fun _ => (5 : ℤ)))
    ∧ calculate_costs m q (some s) =
        Except.map (fun r => { r with expedited := true }) (calculate_costs m q none)
    ∧ ((calculate_costs m q (some s)).toOption.map QuoteResult.lead_time_days =
      (calculate_costs m q (some s)).toOption.map
        (fun r => standardLeadTime r.complexity_score)) := by
  unfold calculate_costs
  rcases hf : find_smallest_fitting_block (m.length, m.width, m.height) with _ | blk
  · refine ⟨rfl, rfl, rfl, rfl, rfl⟩
  · refine ⟨?_, ?_, ?_, ?_, ?_⟩
    · simp only [Except.toOption, Option.map_some', Option.some.injEq]
      rw [mkQuote_lead_time]
      simp [expedited_options]
    · simp only [Except.toOption, Option.map_some', Option.some.injEq]
      rw [mkQuote_lead_time]
      simp [expedited_options]
    · simp only [Except.toOption, Option.map_some', Option.some.injEq]
      rw [mkQuote_lead_time]
      simp [expedited_options]
    · simp only [Except.map]
      rw [mkQuote_unrecognized m q s blk hs]
    · simp only [Except.toOption, Option.map_some', Option.some.injEq]
      rw [mkQuote_lead_time]
      simp only [Option.some_bind, hs]
      rfl

/-- C6 witness: the unrecognized tier "rush" on the specification's example
mesh yields the same quote as no expediting, apart from the flag. -/
theorem C6_witness :
    calculate_costs wMesh 1 (some "rush") =
      Except.map (fun r => { r with expedited := true }) (calculate_costs wMesh 1 none) :=
  (C6_expedited wMesh 1 "rush" (by simp [expedited_options])).2.2.2.1

/-- C7: every successful quote satisfies total_cost = per_unit_cost × quantity
exactly. -/
theorem C7_total_cost (m : MeshGeometry) (q : ℤ) (e : Option String) (r : QuoteResult)
    (hq : 1 ≤ q) (h : calculate_costs m q e = Except.ok r) :
    r.total_cost = r.per_unit_cost * (q : ℚ) := by
  obtain ⟨blk, hf, rfl⟩ := calculate_costs_ok h
  rfl

/-- C7 witness: the specification's example mesh at quantity 2. -/
theorem C7_witness :
    (mkQuote wMesh 2 none (100, 100, 100)).total_cost =
      (mkQuote wMesh 2 none (100, 100, 100)).per_unit_cost * ((2 : ℤ) : ℚ) :=
  C7_total_cost wMesh 2 none _ (by norm_num) calc_w2

/-- C8: the complexity score is always in [0, 8] (four capped non-negative
sub-scores summed and clamped at 8.0), and the category thresholds are exactly
score < 4.0 → low, 4.0 ≤ score < 6.0 → medium, score ≥ 6.0 → high. -/
theorem C8_complexity (m : MeshGeometry) (s : ℚ) (h : 0 ≤ m.surface_area) :
    (0 ≤ calculate_complexity_score m ∧ calculate_complexity_score m ≤ 8)
    ∧ (get_complexity_category s = "low" ↔ s < 4.0)
    ∧ (get_complexity_category s = "medium" ↔ 4.0 ≤ s ∧ s < 6.0)
    ∧ (get_complexity_category s = "high" ↔ 6.0 ≤ s) := by
  refine ⟨score_bounds m h, ?_, ?_, ?_⟩
  · unfold get_complexity_category
    split_ifs with h1 h2
    · exact iff_of_true rfl h1
    · exact iff_of_false (by simp) h1
    · exact iff_of_false (by simp) h1
  · unfold get_complexity_category
    split_ifs with h1 h2
    · exact iff_of_false (by simp) (fun hc => absurd h1 (not_lt.mpr hc.1))
    · exact iff_of_true rfl ⟨not_lt.mp h1, h2⟩
    · exact iff_of_false (by simp) (fun hc => absurd hc.2 h2)
  · unfold get_complexity_category
    split_ifs with h1 h2
    · exact iff_of_false (by simp) (by intro hc; linarith)
    · exact iff_of_false (by simp) (by intro hc; linarith)
    · exact iff_of_true rfl (not_lt.mp h2)

/-- C8 witness: the specification's example mesh and the boundary-interior
score 5. -/
theorem C8_witness :
    (0 ≤ calculate_complexity_score wMesh ∧ calculate_complexity_score wMesh ≤ 8)
    ∧ (get_complexity_category 5 = "low" ↔ (5 : ℚ) < 4.0)
    ∧ (get_complexity_category 5 = "medium" ↔ 4.0 ≤ (5 : ℚ) ∧ (5 : ℚ) < 6.0)
    ∧ (get_complexity_category 5 = "high" ↔ 6.0 ≤ (5 : ℚ)) :=
  C8_complexity wMesh 5 (by norm_num [wMesh])

/-- C9: because the shrink-wrap volume is exactly 0.8 × the (absolute)
convex-hull volume, the medium milling volume is always exactly
0.2 × convex_hull_volume (the clamp at zero never changes it), and whenever
part_volume ≥ 0.8 × convex_hull_volume the fine milling volume is clamped to
exactly 0 and the fine milling cost is 0. -/
theorem C9_milling_volumes (m : MeshGeometry) (q : ℤ) (e : Option String) (r : QuoteResult)
    (h : calculate_costs m q e = Except.ok r) :
    r.breakdown.medium_volume = 0.2 * |m.convex_hull_volume|
    ∧ (0.8 * |m.convex_hull_volume| ≤ |m.volume| →
        r.breakdown.fine_volume = 0 ∧ r.breakdown.fine_milling_cost = 0) := by
  obtain ⟨blk, hf, rfl⟩ := calculate_costs_ok h
  constructor
  · show max 0 ((calculate_volumes m).convex_hull_volume -
      (calculate_volumes m).shrink_wrap_volume) = 0.2 * |m.convex_hull_volume|
    unfold calculate_volumes
    rw [max_eq_right (by nlinarith [abs_nonneg m.convex_hull_volume])]
    ring
  · intro hge
    have hfv : max (0 : ℚ) ((calculate_volumes m).shrink_wrap_volume -
        (calculate_volumes m).part_volume) = 0 := by
      unfold calculate_volumes
      rw [max_eq_left (by nlinarith)]
    constructor
    · exact hfv
    · show max 0 ((calculate_volumes m).shrink_wrap_volume -
        (calculate_volumes m).part_volume) * fine_cost_per_mm3 = 0
      rw [hfv, zero_mul]

/-- C9 witness: the specification's example mesh is near-convex
(150000 ≥ 0.8 × 160000 = 128000), so its fine milling volume and cost are 0
and its medium milling volume is 0.2 × 160000. -/
theorem C9_witness :
    (mkQuote wMesh 1 none (100, 100, 100)).breakdown.medium_volume =
      0.2 * |wMesh.convex_hull_volume|
    ∧ (mkQuote wMesh 1 none (100, 100, 100)).breakdown.fine_volume = 0
    ∧ (mkQuote wMesh 1 none (100, 100, 100)).breakdown.fine_milling_cost = 0 := by
  have h := C9_milling_volumes wMesh 1 none _ calc_w
  have hge : (0.8 : ℚ) * |wMesh.convex_hull_volume| ≤ |wMesh.volume| := by
    rw [show wMesh.convex_hull_volume = 160000 from rfl, show wMesh.volume = 150000 from rfl,
      abs_of_pos (by norm_num), abs_of_pos (by norm_num)]
    norm_num
  exact ⟨h.1, (h.2 hge).1, (h.2 hge).2⟩

/-- C10: the machine_time_cost field equals the sum of the three breakdown
milling costs times the complexity and size multipliers; since that sum is
always positive for a successful quote, it equals the machine_time_cost field
exactly when both multipliers are 1.0. -/
theorem C10_machine_time (m : MeshGeometry) (q : ℤ) (e : Option String) (r : QuoteResult)
    (h : calculate_costs m q e = Except.ok r) :
    r.machine_time_cost =
      (r.breakdown.coarse_milling_cost + r.breakdown.medium_milling_cost +
        r.breakdown.fine_milling_cost) * r.breakdown.complexity_multiplier *
        r.breakdown.size_multiplier
    ∧ (r.breakdown.coarse_milling_cost + r.breakdown.medium_milling_cost +
        r.breakdown.fine_milling_cost = r.machine_time_cost ↔
       r.breakdown.complexity_multiplier = 1 ∧ r.breakdown.size_multiplier = 1) := by
  obtain ⟨blk, hf, rfl⟩ := calculate_costs_ok h
  obtain ⟨hbs, _⟩ := find_some_spec hf
  have hbv : 0 < blockVolume blk := blockVolume_pos hbs
  refine ⟨rfl, ?_⟩
  simp only [mkQuote, calculate_volumes]
  have hC0 : (0 : ℚ) ≤ max 0 (blockVolume blk - |m.convex_hull_volume|) * coarse_cost_per_mm3 :=
    mul_nonneg (le_max_left _ _) (by norm_num [coarse_cost_per_mm3])
  have hM0 : (0 : ℚ) ≤ max 0 (|m.convex_hull_volume| - |m.convex_hull_volume| * 0.8) *
      medium_cost_per_mm3 :=
    mul_nonneg (le_max_left _ _) (by norm_num [medium_cost_per_mm3])
  have hF0 : (0 : ℚ) ≤ max 0 (|m.convex_hull_volume| * 0.8 - |m.volume|) * fine_cost_per_mm3 :=
    mul_nonneg (le_max_left _ _) (by norm_num [fine_cost_per_mm3])
  have hS : 0 < max 0 (blockVolume blk - |m.convex_hull_volume|) * coarse_cost_per_mm3 +
      max 0 (|m.convex_hull_volume| - |m.convex_hull_volume| * 0.8) * medium_cost_per_mm3 +
      max 0 (|m.convex_hull_volume| * 0.8 - |m.volume|) * fine_cost_per_mm3 := by
    rcases le_or_lt (blockVolume blk) |m.convex_hull_volume| with hle | hlt
    · have hchpos : 0 < |m.convex_hull_volume| := lt_of_lt_of_le hbv hle
      have hM : 0 < max 0 (|m.convex_hull_volume| - |m.convex_hull_volume| * 0.8) *
          medium_cost_per_mm3 := by
        rw [max_eq_right (by nlinarith)]
        norm_num [medium_cost_per_mm3]
        nlinarith
      linarith
    · have hC : 0 < max 0 (blockVolume blk - |m.convex_hull_volume|) * coarse_cost_per_mm3 := by
        rw [max_eq_right (by linarith)]
        norm_num [coarse_cost_per_mm3]
        nlinarith [abs_nonneg m.convex_hull_volume]
      linarith
  constructor
  · intro heq
    have h2 : (max 0 (blockVolume blk - |m.convex_hull_volume|) * coarse_cost_per_mm3 +
        max 0 (|m.convex_hull_volume| - |m.convex_hull_volume| * 0.8) * medium_cost_per_mm3 +
        max 0 (|m.convex_hull_volume| * 0.8 - |m.volume|) * fine_cost_per_mm3) *
          (complexity_calibration (get_complexity_category (calculate_complexity_score m)) *
           size_calibration (get_size_category m.length)) =
        (max 0 (blockVolume blk - |m.convex_hull_volume|) * coarse_cost_per_mm3 +
        max 0 (|m.convex_hull_volume| - |m.convex_hull_volume| * 0.8) * medium_cost_per_mm3 +
        max 0 (|m.convex_hull_volume| * 0.8 - |m.volume|) * fine_cost_per_mm3) * 1 := by
      rw [mul_one, ← mul_assoc]
      exact heq.symm
    have hprod := mul_left_cancel₀ (ne_of_gt hS) h2
    rcases complexity_multiplier_cases (calculate_complexity_score m) with hc | hc | hc <;>
      rcases size_multiplier_cases m.length with hs2 | hs2 | hs2 <;>
      rw [hc, hs2] at hprod <;>
      first
      | exact ⟨hc, hs2⟩
      | norm_num at hprod
  · intro ⟨hc, hs2⟩
    rw [hc, hs2, mul_one, mul_one]

/-- C10 witness: the machine-time relation at the specification's example
mesh. -/
theorem C10_witness :
    (mkQuote wMesh 1 none (100, 100, 100)).machine_time_cost =
      ((mkQuote wMesh 1 none (100, 100, 100)).breakdown.coarse_milling_cost +
        (mkQuote wMesh 1 none (100, 100, 100)).breakdown.medium_milling_cost +
        (mkQuote wMesh 1 none (100, 100, 100)).breakdown.fine_milling_cost) *
      (mkQuote wMesh 1 none (100, 100, 100)).breakdown.complexity_multiplier *
      (mkQuote wMesh 1 none (100, 100, 100)).breakdown.size_multiplier :=
  (C10_machine_time wMesh 1 none _ calc_w).1
